import Mathlib

/-!
Verification development for the job-description extractor in
`src/index.js` (function `baixarDescricaoVaga` and its in-page
strategy chain).  The DOM snapshot handed to `page.evaluate` is
modelled as a tree of elements carrying the fields the code reads
(`innerText`, `textContent`, the text recovered from `innerHTML`,
tag, class/id/data-test-id/role attributes).  JavaScript strings are
modelled as `List Char`; `toLowerCase`, `trim`, `includes`, `split`,
`join` and `replace(..., "")` are modelled by the char-list functions
below.  (`Char.toLower` lowers ASCII letters only; every keyword
literal in the source is already lower-case, so the case-insensitive
checks of the source are represented exactly on those keywords.)
-/

set_option maxRecDepth 8000
set_option maxHeartbeats 4000000

namespace OptimizerCV

/-- JavaScript strings, as lists of (UTF-16/BMP) characters. -/
abbrev Str := List Char

/-- Shorthand turning a Lean string literal into a `Str`. -/
def strL (s : String) : Str := s.toList

/-- JavaScript `a || b` for strings: the empty string is falsy. -/
def jsOr (a b : Str) : Str := if a.isEmpty then b else a

/-- Whitespace as trimmed by `String.prototype.trim` (the source only
ever produces spaces, tabs, CR and LF around text). -/
def isWs (c : Char) : Bool := c.isWhitespace

/-- Leading-whitespace removal. -/
def trimL (s : Str) : Str := s.dropWhile isWs

/-- Trailing-whitespace removal. -/
def trimR (s : Str) : Str := (s.reverse.dropWhile isWs).reverse

/-- JavaScript `s.trim()`. -/
def jsTrim (s : Str) : Str := trimR (trimL s)

/-- JavaScript `s.toLowerCase()` (ASCII case folding; all keyword
literals in the source are already lower-case). -/
def lowerStr (s : Str) : Str := s.map Char.toLower

/-- JavaScript `s.includes(pat)`: substring containment. -/
def occursIn (pat : Str) : Str → Bool
  | [] => pat.isEmpty
  | c :: rest => pat.isPrefixOf (c :: rest) || occursIn pat rest

/-- `true` when no keyword of `kws` occurs in `lw` (a battery of
negated `includes` checks in the source). -/
def noneOf (kws : List Str) (lw : Str) : Bool :=
  kws.all (fun k => !(occursIn k lw))

/-- `true` when some keyword of `kws` occurs in `lw`
(`palavrasChave.some(...)` in the source). -/
def anyOf (kws : List Str) (lw : Str) : Bool :=
  kws.any (fun k => occursIn k lw)

/-- Concatenation of a list of strings (the `textoCompleto +=` loop). -/
def catList : List Str → Str
  | [] => []
  | x :: xs => x ++ catList xs

/-- JavaScript `Array.prototype.join(sep)`. -/
def joinSep (sep : Str) : List Str → Str
  | [] => []
  | [x] => x
  | x :: y :: xs => x ++ sep ++ joinSep sep (y :: xs)

/-- JavaScript `s.split("\n")`. -/
def splitNl : Str → List Str
  | [] => [[]]
  | c :: rest =>
    if c = '\n' then [] :: splitNl rest
    else
      match splitNl rest with
      | [] => [[c]]
      | h :: t => (c :: h) :: t

/-- The blank-line separator `"\n\n"`. -/
def nl2 : Str := strL "\n\n"

/-- Fuelled worker for `removeAll` (fuel keeps the recursion
structural, so concrete runs reduce in the kernel). -/
def removeAllFuel (pat : Str) : Nat → Str → Str
  | 0, s => s
  | _ + 1, [] => []
  | fuel + 1, c :: rest =>
    if pat ≠ [] ∧ pat.isPrefixOf (c :: rest) = true then
      removeAllFuel pat fuel (List.drop pat.length (c :: rest))
    else c :: removeAllFuel pat fuel rest

/-- JavaScript `s.replace(/pat/g, "")` for a literal, case-sensitive
pattern: every occurrence is deleted, scanning left to right. -/
def removeAll (pat s : Str) : Str := removeAllFuel pat s.length s

/-- Fuelled worker for `removeAllCI`. -/
def removeAllCIFuel (pat : Str) : Nat → Str → Str
  | 0, s => s
  | _ + 1, [] => []
  | fuel + 1, c :: rest =>
    if pat ≠ [] ∧ lowerStr (List.take pat.length (c :: rest)) = pat then
      removeAllCIFuel pat fuel (List.drop pat.length (c :: rest))
    else c :: removeAllCIFuel pat fuel rest

/-- JavaScript `s.replace(/pat/gi, "")` for a literal pattern given in
lower case: every case-insensitive occurrence is deleted.  (The source
patterns `Política.*?`, `Cookie.*?`, `Sobre a LinkedIn.*?` end in a
lazy `.*?`, which matches the empty string, so each regex match is
exactly the literal.) -/
def removeAllCI (pat s : Str) : Str := removeAllCIFuel pat s.length s

/-- A rendered DOM element: the fields the strategy chain reads, plus
the element's descendants in document order.  `innerHTMLText` is the
text recovered by the source's detached-`div` trick (serialising
`innerHTML` and reading the text back); `descs` is the preorder list
of all descendants, as `querySelectorAll` would enumerate them. -/
inductive Elem : Type where
  | mk (tag : Str) (classes : List Str) (idAttr : Str)
       (dataTestId : Option Str) (role : Option Str)
       (innerText textContent innerHTMLText : Str)
       (descs : List Elem) : Elem

def Elem.tag : Elem → Str
  | .mk t _ _ _ _ _ _ _ _ => t

def Elem.classes : Elem → List Str
  | .mk _ c _ _ _ _ _ _ _ => c

def Elem.idAttr : Elem → Str
  | .mk _ _ i _ _ _ _ _ _ => i

def Elem.dataTestId : Elem → Option Str
  | .mk _ _ _ d _ _ _ _ _ => d

def Elem.role : Elem → Option Str
  | .mk _ _ _ _ r _ _ _ _ => r

def Elem.innerText : Elem → Str
  | .mk _ _ _ _ _ it _ _ _ => it

def Elem.textContent : Elem → Str
  | .mk _ _ _ _ _ _ tc _ _ => tc

def Elem.innerHTMLText : Elem → Str
  | .mk _ _ _ _ _ _ _ ht _ => ht

def Elem.descs : Elem → List Elem
  | .mk _ _ _ _ _ _ _ _ ds => ds

/-- The `class` attribute as a single string (class tokens joined by
spaces), for `[class*="..."]` substring matching. -/
def classAttr (e : Elem) : Str := joinSep (strL " ") e.classes

/-- The CSS selector shapes used by the source. -/
inductive Sel : Type where
  | classToken (c : Str)
  | classContains (f : Str)
  | tagClassContains (t f : Str)
  | testIdEq (v : Str)
  | testIdContains (f : Str)
  | hasTestId
  | idContains (f : Str)
  | byTag (t : Str)
  | byRole (r : Str)
  | universal
deriving DecidableEq

/-- Whether element `e` matches selector `q`. -/
def selMatches (e : Elem) : Sel → Bool
  | .classToken c => e.classes.contains c
  | .classContains f => occursIn f (classAttr e)
  | .tagClassContains t f => e.tag == t && occursIn f (classAttr e)
  | .testIdEq v => e.dataTestId == some v
  | .testIdContains f =>
    match e.dataTestId with
    | some v => occursIn f v
    | none => false
  | .hasTestId => e.dataTestId.isSome
  | .idContains f => occursIn f e.idAttr
  | .byTag t => e.tag == t
  | .byRole r => e.role == some r
  | .universal => true

/-- A rendered page snapshot: the document element plus the set of
selectors whose query would throw in this environment (Scenario 5 of
the spec; querying such a rule raises, and the only try/catch guarding
individual rules is the one around the priority-selector loop). -/
structure Snapshot : Type where
  root : Elem
  throwing : List Sel

/-- `document.querySelectorAll("*")` order: the document element
followed by its descendants in document order. -/
def allElements (s : Snapshot) : List Elem := s.root :: s.root.descs

/-- `document.querySelectorAll` for a comma-separated selector list:
document-order elements matching any alternative. -/
def queryAll (s : Snapshot) (qs : List Sel) : List Elem :=
  (allElements s).filter (fun e => qs.any (selMatches e))

/-- `document.querySelector` for a single selector. -/
def querySel (s : Snapshot) (q : Sel) : Option Elem :=
  (allElements s).find? (fun e => selMatches e q)

/-- `document.querySelector` for a comma-separated selector list. -/
def querySelFirst (s : Snapshot) (qs : List Sel) : Option Elem :=
  (queryAll s qs).head?

/-- The ordered priority selector list (`seletoresPrioritarios`). -/
def seletoresPrioritarios : List Sel :=
  [ .classToken (strL "show-more-less-html__markup")
  , .classToken (strL "jobs-description-content__text")
  , .testIdEq (strL "job-details-description")
  , .classToken (strL "jobs-box__html-content")
  , .classToken (strL "description__text")
  , .classToken (strL "jobs-description__content")
  , .tagClassContains (strL "div") (strL "jobs-description")
  , .tagClassContains (strL "section") (strL "jobs-description")
  , .classContains (strL "description__text")
  , .classContains (strL "job-details")
  , .classToken (strL "jobs-description__text")
  , .idContains (strL "job-details")
  , .tagClassContains (strL "div") (strL "jobs-details")
  , .tagClassContains (strL "section") (strL "jobs-details")
  , .testIdContains (strL "description")
  , .testIdContains (strL "job") ]

/-- Negative keywords of the priority-selector acceptance check
(source lines 295-306). -/
def negPrimario : List Str :=
  [ strL "linkedin", strL "entrar", strL "cadastre-se"
  , strL "política de privacidade", strL "nível de experiência"
  , strL "tipo de emprego", strL "função", strL "setores"
  , strL "assistente", strL "tempo integral"
  , strL "tecnologia da informação", strL "desenvolvimento de software" ]

/-- Negative keywords of the `data-test-id` sweep (lines 324-328). -/
def negTestId : List Str :=
  [ strL "linkedin", strL "nível de experiência", strL "tipo de emprego"
  , strL "função", strL "setores" ]

/-- Negative keywords of the attribute sweep (lines 343-347). -/
def negAtributos : List Str :=
  [ strL "linkedin", strL "entrar", strL "cadastre-se"
  , strL "política", strL "cookie" ]

/-- Positive keywords of the attribute sweep (`palavrasChave`,
lines 350-365). -/
def posAtributos : List Str :=
  [ strL "responsabilidade", strL "requisito", strL "experiência"
  , strL "habilidade", strL "trabalho", strL "equipe"
  , strL "desenvolvimento", strL "projeto", strL "tecnologia"
  , strL "atribuição", strL "desejável", strL "diferencial"
  , strL "benefício", strL "salário" ]

/-- Metadata blocklist applied to each paragraph fragment
(lines 390-395). -/
def negFragmento : List Str :=
  [ strL "nível de experiência", strL "tipo de emprego", strL "função"
  , strL "setores", strL "assistente", strL "tempo integral" ]

/-- Negative keywords applied to the aggregated paragraph text
(lines 406-408). -/
def negAgregado : List Str :=
  [ strL "linkedin", strL "entrar", strL "cadastre-se" ]

/-- `palavrasChaveDescricao` of the keyword sweep (lines 416-430). -/
def posDescricao : List Str :=
  [ strL "responsabilidade", strL "atribuição", strL "requisito"
  , strL "desejável", strL "diferencial", strL "benefício"
  , strL "salário", strL "remoto", strL "presencial"
  , strL "desenvolvimento", strL "projeto", strL "equipe"
  , strL "tecnologia" ]

/-- Metadata rejection of the keyword sweep (lines 439-444). -/
def negDescricao : List Str :=
  [ strL "nível de experiência", strL "tipo de emprego", strL "função"
  , strL "setores", strL "linkedin" ]

/-- Negative keywords of the largest-block scan (lines 464-471). -/
def negMaior : List Str :=
  [ strL "linkedin", strL "entrar", strL "cadastre-se", strL "política"
  , strL "cookie", strL "sobre a linkedin", strL "acessibilidade" ]

/-- Positive keywords of the largest-block scan (lines 474-483). -/
def posMaior : List Str :=
  [ strL "responsabilidade", strL "requisito", strL "experiência"
  , strL "habilidade", strL "atribuição", strL "desejável"
  , strL "diferencial", strL "benefício" ]

/-- Line blocklist of the main-content line filter (lines 538-548). -/
def negLinha : List Str :=
  [ strL "linkedin", strL "entrar", strL "nível de experiência"
  , strL "tipo de emprego", strL "função", strL "setores"
  , strL "assistente", strL "tempo integral"
  , strL "tecnologia da informação", strL "desenvolvimento de software" ]

/-- Positive keywords of the alternative (retry) scan
(lines 585-590). -/
def posAlternativa : List Str :=
  [ strL "responsabilidade", strL "atribuição", strL "requisito"
  , strL "desejável", strL "desenvolvimento" ]

/-- Metadata rejection of the alternative (retry) scan
(lines 591-595). -/
def negAlternativa : List Str :=
  [ strL "nível de experiência", strL "tipo de emprego", strL "função"
  , strL "setores" ]

/-- The `NotFound` sentinel string (line 558). -/
def sentinel : Str :=
  strL "Descrição não encontrada - não foi possível localizar a descrição completa da vaga"

/-- The error-string template of the outer catch (line 620). -/
def erroPrefixo : Str := strL "Erro ao baixar descrição: "

/-- Text extraction of the priority-selector loop (lines 276-290):
`innerText || textContent || ""`, re-extracted from `innerHTML` via a
detached container when shorter than 200 characters after trimming. -/
def primTexto (e : Elem) : Str :=
  if (jsTrim (jsOr e.innerText e.textContent)).length < 200 then
    jsOr e.innerHTMLText (jsOr e.innerText e.textContent)
  else jsOr e.innerText e.textContent

/-- Acceptance check of the priority-selector loop (lines 293-309):
more than 300 trimmed characters and none of the twelve negative
keywords, case-insensitively. -/
def primarioCheck (e : Elem) : Option Str :=
  if 300 < (jsTrim (primTexto e)).length ∧
      noneOf negPrimario (lowerStr (jsTrim (primTexto e))) = true then
    some (jsTrim (primTexto e))
  else none

/-- The priority-selector loop (lines 271-314).  Each query sits in a
`try`/`catch`: a throwing selector is caught and the loop simply
continues with the next selector. -/
def catalogLoop (s : Snapshot) : List Sel → Option Str
  | [] => none
  | q :: rest =>
    if q ∈ s.throwing then catalogLoop s rest
    else
      match querySel s q with
      | none => catalogLoop s rest
      | some e =>
        match primarioCheck e with
        | some t => some t
        | none => catalogLoop s rest

/-- Strategy 1: the priority selector catalog. -/
def catalogScan (s : Snapshot) : Option Str :=
  catalogLoop s seletoresPrioritarios

/-- First accepted candidate of a per-element check over a list, in
document order (the `for ... return` loops of the fallbacks). -/
def firstHit (f : Elem → Option Str) : List Elem → Option Str
  | [] => none
  | e :: rest =>
    match f e with
    | some t => some t
    | none => firstHit f rest

/-- Per-element check of the `data-test-id` sweep (lines 320-331). -/
def testIdCheck (e : Elem) : Option Str :=
  if 500 < (jsTrim (jsOr e.innerText e.textContent)).length ∧
      noneOf negTestId (lowerStr (jsTrim (jsOr e.innerText e.textContent))) = true then
    some (jsTrim (jsOr e.innerText e.textContent))
  else none

/-- Strategy 2: sweep of elements whose `data-test-id` mentions job,
description or detail (lines 316-332). -/
def testIdSweep (s : Snapshot) : Option Str :=
  firstHit testIdCheck
    (queryAll s [ .testIdContains (strL "job")
                , .testIdContains (strL "description")
                , .testIdContains (strL "detail") ])

/-- Per-element check of the attribute sweep (lines 338-373): more
than 300 characters, negative keywords absent, and at least one
positive keyword present.  Note `textContent` is preferred here. -/
def atributosCheck (e : Elem) : Option Str :=
  if 300 < (jsTrim (jsOr e.textContent e.innerText)).length ∧
      noneOf negAtributos (lowerStr (jsTrim (jsOr e.textContent e.innerText))) = true ∧
      anyOf posAtributos (lowerStr (jsTrim (jsOr e.textContent e.innerText))) = true then
    some (jsTrim (jsOr e.textContent e.innerText))
  else none

/-- Strategy 3: sweep of elements carrying a `data-test-id` or a
class mentioning job/description (lines 334-374). -/
def atributosSweep (s : Snapshot) : Option Str :=
  firstHit atributosCheck
    (queryAll s [ .hasTestId
                , .classContains (strL "job")
                , .classContains (strL "description") ])

/-- One paragraph fragment (lines 385-399): the trimmed text of a
leaf, kept when longer than 50 characters and free of the metadata
blocklist. -/
def fragQual (p : Elem) : Option Str :=
  if 50 < (jsTrim (jsOr p.textContent p.innerText)).length ∧
      noneOf negFragmento (lowerStr (jsTrim (jsOr p.textContent p.innerText))) = true then
    some (jsTrim (jsOr p.textContent p.innerText))
  else none

/-- Leaf tags enumerated inside a container (`p, li, div, span`). -/
def leafTags : List Str := [strL "p", strL "li", strL "div", strL "span"]

/-- Qualifying fragments of one container, in document order. -/
def secaoFrags (secao : Elem) : List Str :=
  (secao.descs.filter (fun p => leafTags.any (fun t => p.tag == t))).filterMap fragQual

/-- `textoCompleto` of one container: every qualifying fragment
followed by a blank-line separator (line 397). -/
def aggCompleto (secao : Elem) : Str :=
  catList ((secaoFrags secao).map (fun f => f ++ nl2))

/-- Per-container check of the paragraph aggregation (lines 380-413):
at least 3 qualifying fragments, more than 500 aggregated characters,
and the trimmed aggregate free of linkedin/entrar/cadastre-se. -/
def secaoAgg (secao : Elem) : Option Str :=
  if 3 ≤ (secaoFrags secao).length ∧ 500 < (aggCompleto secao).length then
    if noneOf negAgregado (lowerStr (jsTrim (aggCompleto secao))) = true then
      some (jsTrim (aggCompleto secao))
    else none
  else none

/-- Strategy 4: paragraph aggregation over every section/div/article
container (lines 376-413). -/
def paragraphAgg (s : Snapshot) : Option Str :=
  firstHit secaoAgg
    (queryAll s [ .byTag (strL "section"), .byTag (strL "div")
                , .byTag (strL "article") ])

/-- Per-element check of the description-keyword sweep
(lines 432-449): more than 400 characters, a positive keyword, and no
metadata keyword. -/
def descricaoCheck (e : Elem) : Option Str :=
  if 400 < (jsTrim (jsOr e.innerText e.textContent)).length ∧
      anyOf posDescricao (lowerStr (jsTrim (jsOr e.innerText e.textContent))) = true ∧
      noneOf negDescricao (lowerStr (jsTrim (jsOr e.innerText e.textContent))) = true then
    some (jsTrim (jsOr e.innerText e.textContent))
  else none

/-- Strategy 5: keyword sweep over every div/section (lines 415-450). -/
def descricaoSweep (s : Snapshot) : Option Str :=
  firstHit descricaoCheck
    (queryAll s [ .byTag (strL "div"), .byTag (strL "section") ])

/-- Candidate text of the largest-block scan (line 460):
`textContent || innerText`, trimmed. -/
def scanTexto (e : Elem) : Str := jsTrim (jsOr e.textContent e.innerText)

/-- Qualification of the largest-block scan: more than 500 characters,
all negative keywords absent, at least one positive keyword present. -/
def ScanQual (e : Elem) : Prop :=
  500 < (scanTexto e).length ∧
    noneOf negMaior (lowerStr (scanTexto e)) = true ∧
    anyOf posMaior (lowerStr (scanTexto e)) = true

instance (e : Elem) : Decidable (ScanQual e) := by
  unfold ScanQual; infer_instance

/-- The `melhorElemento`/`maiorTamanho` fold of the largest-block scan
(lines 456-493): keep the qualifying candidate of strictly greatest
length seen so far. -/
def largestGo : List Elem → Option Str → Nat → Option Str
  | [], melhor, _ => melhor
  | e :: rest, melhor, maior =>
    if 500 < (scanTexto e).length ∧
        noneOf negMaior (lowerStr (scanTexto e)) = true then
      if anyOf posMaior (lowerStr (scanTexto e)) = true ∧
          maior < (scanTexto e).length then
        largestGo rest (some (scanTexto e)) (scanTexto e).length
      else largestGo rest melhor maior
    else largestGo rest melhor maior

/-- Strategy 6: whole-document largest-relevant-block scan
(lines 452-497). -/
def largestScan (s : Snapshot) : Option Str :=
  largestGo
    (queryAll s [ .byTag (strL "div"), .byTag (strL "section")
                , .byTag (strL "article"), .byTag (strL "main") ])
    none 0

/-- Per-element check of the degraded main-content fallback
(lines 503-519): more than 500 characters, then literal removal of
`LinkedIn` (case-sensitive) and of entrar/cadastre-se/política/
cookie/sobre a linkedin (case-insensitive), accepted when more than
300 characters survive. -/
def degradedCheck (e : Elem) : Option Str :=
  if 500 < (jsTrim (jsOr e.textContent e.innerText)).length then
    if 300 < (jsTrim (removeAllCI (strL "sobre a linkedin")
        (removeAllCI (strL "cookie") (removeAllCI (strL "política")
        (removeAllCI (strL "cadastre-se") (removeAllCI (strL "entrar")
        (removeAll (strL "LinkedIn")
          (jsTrim (jsOr e.textContent e.innerText))))))))).length then
      some (jsTrim (removeAllCI (strL "sobre a linkedin")
        (removeAllCI (strL "cookie") (removeAllCI (strL "política")
        (removeAllCI (strL "cadastre-se") (removeAllCI (strL "entrar")
        (removeAll (strL "LinkedIn")
          (jsTrim (jsOr e.textContent e.innerText)))))))))
    else none
  else none

/-- Strategy 7: degraded boilerplate-stripping fallback over
main/article/[role=main] (lines 499-520). -/
def degradedMain (s : Snapshot) : Option Str :=
  firstHit degradedCheck
    (queryAll s [ .byTag (strL "main"), .byTag (strL "article")
                , .byRole (strL "main") ])

/-- Filter of one line of the main-content text (lines 535-550): the
trimmed line exceeds 20 characters and the lower-cased trimmed line
contains none of the line blocklist. -/
def lineOk (linha : Str) : Bool :=
  decide (20 < (jsTrim linha).length) &&
    noneOf negLinha (jsTrim (lowerStr linha))

/-- Strategy 8: line-level filter of the main content region
(lines 522-556): when the main region holds more than 1000 characters
and more than 5 lines survive the filter, their join with blank lines
is returned. -/
def lineFilter (s : Snapshot) : Option Str :=
  match querySelFirst s [ .byTag (strL "main"), .byRole (strL "main")
                        , .classToken (strL "jobs-search__job-details") ] with
  | none => none
  | some m =>
    if 1000 < (jsTrim (jsOr m.innerText m.textContent)).length then
      if 5 < ((splitNl (jsTrim (jsOr m.innerText m.textContent))).filter lineOk).length then
        some (joinSep nl2
          ((splitNl (jsTrim (jsOr m.innerText m.textContent))).filter lineOk))
      else none
    else none

/-- The whole `page.evaluate` strategy chain (lines 249-559): the
eight strategies in source order, each an early `return`, with the
`NotFound` sentinel as the final fallback. -/
def extrairDescricao (s : Snapshot) : Str :=
  match catalogScan s with
  | some t => t
  | none =>
    match testIdSweep s with
    | some t => t
    | none =>
      match atributosSweep s with
      | some t => t
      | none =>
        match paragraphAgg s with
        | some t => t
        | none =>
          match descricaoSweep s with
          | some t => t
          | none =>
            match largestScan s with
            | some t => t
            | none =>
              match degradedMain s with
              | some t => t
              | none =>
                match lineFilter s with
                | some t => t
                | none => sentinel

/-- Per-element check of the alternative (retry) scan
(lines 576-605): any element with more than 500 characters, one of
five positive keywords, no metadata keyword and no mention of the
brand name. -/
def alternativaCheck (e : Elem) : Option Str :=
  if 500 < (jsTrim (jsOr e.innerText e.textContent)).length ∧
      anyOf posAlternativa (lowerStr (jsTrim (jsOr e.innerText e.textContent))) = true ∧
      noneOf negAlternativa (lowerStr (jsTrim (jsOr e.innerText e.textContent))) = true ∧
      occursIn (strL "linkedin") (lowerStr (jsTrim (jsOr e.innerText e.textContent))) = false then
    some (jsTrim (jsOr e.innerText e.textContent))
  else none

/-- The `descricaoAlternativa` retry scan (lines 574-607), run on the
second snapshot after the settle delay. -/
def descricaoAlternativa (s : Snapshot) : Option Str :=
  firstHit alternativaCheck (allElements s)

/-- The post-check trigger (lines 562-566): trimmed first-pass result
shorter than 300 characters, or a residual metadata phrase. -/
def retryTrigger (d : Str) : Bool :=
  decide ((jsTrim d).length < 300) ||
    occursIn (strL "nível de experiência") (lowerStr d) ||
    occursIn (strL "tipo de emprego") (lowerStr d)

/-- The value `baixarDescricaoVaga` computes from the first-pass
snapshot and the (possibly re-settled) retry snapshot
(lines 561-617): on trigger, the alternative scan's value is returned
when present and longer than 300 characters, otherwise the first-pass
value; both trimmed. -/
def descricaoFinal (s1 s2 : Snapshot) : Str :=
  if retryTrigger (extrairDescricao s1) then
    match descricaoAlternativa s2 with
    | some a => if 300 < a.length then jsTrim a else jsTrim (extrairDescricao s1)
    | none => jsTrim (extrairDescricao s1)
  else jsTrim (extrairDescricao s1)

/-- The body of the outer `try` (lines 117-617): an upstream Page
Driver failure (navigation, rendering) is an exception that aborts
the body; otherwise the extraction result is produced. -/
def tryBody (inp : Except Str (Snapshot × Snapshot)) : Except Str Str :=
  match inp with
  | .error e => .error e
  | .ok (s1, s2) => .ok (descricaoFinal s1 s2)

/-- `baixarDescricaoVaga` at its public interface (lines 116-622):
the outer `catch` converts every exception into the normal string
`"Erro ao baixar descrição: " ++ message`, so the call always
returns a value. -/
def baixarDescricaoVaga (inp : Except Str (Snapshot × Snapshot)) : Except Str Str :=
  match tryBody inp with
  | .ok r => .ok r
  | .error e => .ok (erroPrefixo ++ e)

/-- A 25-character line of plain text. -/
def goodLine : Str := List.replicate 25 'a'

/-- A 216-character line of brand-name boilerplate (stripped whole by
the degraded fallback's `replace(/LinkedIn/g, "")`). -/
def fillerLine : Str := catList (List.replicate 27 (strL "LinkedIn"))

/-- Main-content text of the short-result snapshot: six plain lines
and four boilerplate lines, 1023 characters in all. -/
def exC1Texto : Str :=
  joinSep (strL "\n") (List.replicate 6 goodLine ++ List.replicate 4 fillerLine)

/-- A `main` region carrying `exC1Texto`. -/
def exC1Elem : Elem :=
  .mk (strL "main") [] [] none none exC1Texto exC1Texto [] []

/-- Snapshot on which only the line filter succeeds, with a
160-character result. -/
def exC1 : Snapshot := ⟨exC1Elem, []⟩

/-- A bare, empty `div`. -/
def emptyElem : Elem := .mk (strL "div") [] [] none none [] [] [] []

/-- Snapshot on which every strategy fails (sentinel result). -/
def emptySnap : Snapshot := ⟨emptyElem, []⟩

/-- 400 characters of description-like text. -/
def exW1Texto : Str := catList (List.replicate 40 (strL "requisito "))

/-- An element matching the first priority selector. -/
def exW1Elem : Elem :=
  .mk (strL "div") [strL "show-more-less-html__markup"] [] none none
    exW1Texto exW1Texto [] []

/-- Snapshot on which the priority-selector catalog succeeds. -/
def exW1 : Snapshot := ⟨exW1Elem, []⟩

/-- 520 characters of plain text. -/
def exW2Texto : Str := List.replicate 520 'c'

/-- An element whose `data-test-id` mentions detail but matches no
priority selector. -/
def exW2Elem : Elem :=
  .mk (strL "div") [] [] (some (strL "detail-pane")) none
    exW2Texto exW2Texto [] []

/-- Snapshot on which the catalog misses and the `data-test-id`
sweep succeeds. -/
def exW2 : Snapshot := ⟨exW2Elem, []⟩

/-- 512 characters consisting of the metadata phrase
`tipo de emprego` repeated. -/
def exC4Texto : Str := catList (List.replicate 32 (strL "tipo de emprego "))

/-- A `main` region carrying `exC4Texto`. -/
def exC4Elem : Elem :=
  .mk (strL "main") [] [] none none exC4Texto exC4Texto [] []

/-- Snapshot on which only the degraded main-content fallback
succeeds, returning text full of a negative keyword. -/
def exC4 : Snapshot := ⟨exC4Elem, []⟩

/-- A 130-character paragraph fragment. -/
def fragB : Str := List.replicate 130 'b'

/-- A paragraph leaf carrying `fragB`. -/
def exC9P : Elem := .mk (strL "p") [] [] none none fragB fragB [] []

/-- A `div` container with four paragraph children. -/
def exC9Div : Elem :=
  .mk (strL "div") [] [] none none (catList [fragB, fragB, fragB, fragB])
    (catList [fragB, fragB, fragB, fragB]) [] [exC9P, exC9P, exC9P, exC9P]

/-- The document element above `exC9Div`. -/
def exC9Body : Elem :=
  .mk (strL "body") [] [] none none (catList [fragB, fragB, fragB, fragB])
    (catList [fragB, fragB, fragB, fragB]) []
    [exC9Div, exC9P, exC9P, exC9P, exC9P]

/-- Snapshot on which paragraph aggregation succeeds. -/
def exC9 : Snapshot := ⟨exC9Body, []⟩

/-- 520 characters of description-like text. -/
def exAltTexto : Str := catList (List.replicate 52 (strL "requisito "))

/-- An element accepted by the alternative (retry) scan. -/
def exAltElem : Elem :=
  .mk (strL "div") [] [] none none exAltTexto exAltTexto [] []

/-- Snapshot on which the alternative (retry) scan succeeds. -/
def exAlt : Snapshot := ⟨exAltElem, []⟩

/-- 600 characters of description-like text. -/
def exScanBigT : Str := catList (List.replicate 60 (strL "requisito "))

/-- A qualifying largest-scan candidate of length 519. -/
def exScanSmall : Elem :=
  .mk (strL "div") [] [] none none [] exAltTexto [] []

/-- A qualifying largest-scan candidate of length 599. -/
def exScanBig : Elem :=
  .mk (strL "div") [] [] none none [] exScanBigT [] []

/-- An element whose text is just the brand name. -/
def exKwElem : Elem :=
  .mk (strL "div") [] [] none none (strL "linkedin") [] [] []

/-- A concrete upstream navigation-failure message. -/
def navMsg : Str := strL "Navigation timeout of 30000 ms exceeded"

/-- The head surviving `dropWhile isWs` is not whitespace. -/
theorem dropWhile_head_ws {l : Str} {c : Char} {t : Str}
    (h : l.dropWhile isWs = c :: t) : isWs c = false := by
  induction l with
  | nil => simp [List.dropWhile] at h
  | cons a l ih =>
    rw [List.dropWhile_cons] at h
    split at h
    · exact ih h
    · next hn =>
      injection h with h1 _
      subst h1
      simpa using hn

/-- If `dropWhile isWs` empties a list, the list was all whitespace. -/
theorem dropWhile_nil_ws {l : Str} (h : l.dropWhile isWs = []) :
    ∀ c ∈ l, isWs c = true := by
  induction l with
  | nil => intro c hc; cases hc
  | cons a l ih =>
    rw [List.dropWhile_cons] at h
    split at h
    · next ha =>
      intro c hc
      rcases List.mem_cons.mp hc with rfl | hc
      · exact ha
      · exact ih h c hc
    · cases h

/-- Members of `takeWhile isWs` are whitespace. -/
theorem takeWhile_mem_ws {l : Str} {c : Char}
    (h : c ∈ l.takeWhile isWs) : isWs c = true := by
  induction l with
  | nil => cases h
  | cons a l ih =>
    rw [List.takeWhile_cons] at h
    split at h
    · next ha =>
      rcases List.mem_cons.mp h with rfl | h2
      · exact ha
      · exact ih h2
    · cases h

/-- A string is its right-trimmed form followed by trailing
whitespace. -/
theorem trimR_decomp (s : Str) :
    s = trimR s ++ (s.reverse.takeWhile isWs).reverse := by
  calc s = s.reverse.reverse := (List.reverse_reverse s).symm
  _ = (s.reverse.takeWhile isWs ++ s.reverse.dropWhile isWs).reverse := by
      rw [List.takeWhile_append_dropWhile]
  _ = (s.reverse.dropWhile isWs).reverse ++ (s.reverse.takeWhile isWs).reverse := by
      rw [List.reverse_append]
  _ = trimR s ++ (s.reverse.takeWhile isWs).reverse := rfl

/-- The first character of a nonempty trimmed string is not
whitespace. -/
theorem jsTrim_head {s : Str} {c : Char} {t : Str}
    (h : jsTrim s = c :: t) : isWs c = false := by
  have h2 := trimR_decomp (trimL s)
  rw [show trimR (trimL s) = jsTrim s from rfl, h] at h2
  exact dropWhile_head_ws
    (show s.dropWhile isWs = c :: (t ++ ((trimL s).reverse.takeWhile isWs).reverse) by
      rw [← List.cons_append]; exact h2)

/-- The last character of a nonempty trimmed string is not
whitespace. -/
theorem jsTrim_rev_head {s : Str} {d : Char} {t : Str}
    (h : (jsTrim s).reverse = d :: t) : isWs d = false := by
  have h2 : (trimL s).reverse.dropWhile isWs = d :: t := by
    rw [show (jsTrim s).reverse = ((trimL s).reverse.dropWhile isWs).reverse.reverse from rfl,
      List.reverse_reverse] at h
    exact h
  exact dropWhile_head_ws h2

/-- Trimming only removes characters. -/
theorem mem_of_mem_jsTrim {s : Str} {c : Char} (h : c ∈ jsTrim s) :
    c ∈ s := by
  have h2 : c ∈ trimL s := by
    rw [trimR_decomp (trimL s)]
    exact List.mem_append.mpr (Or.inl h)
  have h3 : c ∈ s.takeWhile isWs ++ s.dropWhile isWs :=
    List.mem_append.mpr (Or.inr h2)
  rwa [List.takeWhile_append_dropWhile] at h3

/-- If trimming empties a string, it was all whitespace. -/
theorem jsTrim_nil_ws {s : Str} (h : jsTrim s = []) :
    ∀ c ∈ s, isWs c = true := by
  have h0 : ((trimL s).reverse.dropWhile isWs).reverse = [] := h
  have h1 : (trimL s).reverse.dropWhile isWs = [] := by
    have h2 := congrArg List.reverse h0
    simpa using h2
  have h2 : ∀ c ∈ trimL s, isWs c = true := by
    intro c hc
    exact dropWhile_nil_ws h1 c (List.mem_reverse.mpr hc)
  intro c hc
  rw [← List.takeWhile_append_dropWhile isWs s] at hc
  rcases List.mem_append.mp hc with h3 | h3
  · exact takeWhile_mem_ws h3
  · exact h2 c h3

/-- A string holding a non-whitespace character does not trim to the
empty string. -/
theorem jsTrim_ne_nil {s : Str} {c : Char} (hc : c ∈ s)
    (hw : isWs c = false) : jsTrim s ≠ [] := by
  intro h
  rw [jsTrim_nil_ws h c hc] at hw
  cases hw

/-- A nonempty trim result contains a non-whitespace character. -/
theorem jsTrim_has_nonws {u : Str} (h : 0 < (jsTrim u).length) :
    ∃ c, c ∈ jsTrim u ∧ isWs c = false := by
  cases hu : jsTrim u with
  | nil => rw [hu] at h; cases h
  | cons c t => exact ⟨c, List.mem_cons_self c t, jsTrim_head hu⟩

/-- Trimming does not lengthen a string. -/
theorem jsTrim_length_le (s : Str) : (jsTrim s).length ≤ s.length := by
  have h1 : (trimR (trimL s)).length ≤ (trimL s).length := by
    conv_rhs => rw [trimR_decomp (trimL s)]
    rw [List.length_append]
    omega
  have h2 : (trimL s).length ≤ s.length := by
    conv_rhs => rw [← List.takeWhile_append_dropWhile isWs s]
    rw [List.length_append]
    exact Nat.le_add_left _ _
  exact Nat.le_trans h1 h2

/-- A hit of `firstHit` comes from some element of the list. -/
theorem firstHit_some {f : Elem → Option Str} :
    ∀ {l : List Elem} {t : Str}, firstHit f l = some t →
      ∃ e, e ∈ l ∧ f e = some t := by
  intro l
  induction l with
  | nil => intro t h; cases h
  | cons e rest ih =>
    intro t h
    unfold firstHit at h
    cases hf : f e with
    | some u =>
      simp only [hf] at h
      exact ⟨e, List.mem_cons_self e rest, hf.trans h⟩
    | none =>
      simp only [hf] at h
      obtain ⟨e2, he2, hfe2⟩ := ih h
      exact ⟨e2, List.mem_cons_of_mem e he2, hfe2⟩

/-- A hit of the priority-selector loop comes from some element that
passed the acceptance check. -/
theorem catalogLoop_some {s : Snapshot} :
    ∀ {sels : List Sel} {t : Str}, catalogLoop s sels = some t →
      ∃ e, primarioCheck e = some t := by
  intro sels
  induction sels with
  | nil => intro t h; cases h
  | cons q rest ih =>
    intro t h
    unfold catalogLoop at h
    split at h
    · exact ih h
    · cases hq : querySel s q with
      | none => simp only [hq] at h; exact ih h
      | some e =>
        simp only [hq] at h
        cases hp : primarioCheck e with
        | none => simp only [hp] at h; exact ih h
        | some u => simp only [hp] at h; exact ⟨e, hp.trans h⟩

/-- The text accepted by the priority check is a trimmed string of
more than 300 characters. -/
theorem primarioCheck_bound {e : Elem} {t : Str}
    (h : primarioCheck e = some t) :
    300 < t.length ∧ ∃ u, t = jsTrim u := by
  unfold primarioCheck at h
  split at h
  · next hc =>
    obtain rfl := Option.some.inj h
    exact ⟨hc.1, primTexto e, rfl⟩
  · cases h

/-- The text accepted by the `data-test-id` sweep is a trimmed string
of more than 500 characters. -/
theorem testIdCheck_bound {e : Elem} {t : Str}
    (h : testIdCheck e = some t) :
    500 < t.length ∧ ∃ u, t = jsTrim u := by
  unfold testIdCheck at h
  split at h
  · next hc =>
    obtain rfl := Option.some.inj h
    exact ⟨hc.1, jsOr e.innerText e.textContent, rfl⟩
  · cases h

/-- The text accepted by the attribute sweep is a trimmed string of
more than 300 characters. -/
theorem atributosCheck_bound {e : Elem} {t : Str}
    (h : atributosCheck e = some t) :
    300 < t.length ∧ ∃ u, t = jsTrim u := by
  unfold atributosCheck at h
  split at h
  · next hc =>
    obtain rfl := Option.some.inj h
    exact ⟨hc.1, jsOr e.textContent e.innerText, rfl⟩
  · cases h

/-- The text accepted by the keyword sweep is a trimmed string of
more than 400 characters. -/
theorem descricaoCheck_bound {e : Elem} {t : Str}
    (h : descricaoCheck e = some t) :
    400 < t.length ∧ ∃ u, t = jsTrim u := by
  unfold descricaoCheck at h
  split at h
  · next hc =>
    obtain rfl := Option.some.inj h
    exact ⟨hc.1, jsOr e.innerText e.textContent, rfl⟩
  · cases h

/-- The text accepted by the degraded fallback is a trimmed string of
more than 300 characters. -/
theorem degradedCheck_bound {e : Elem} {t : Str}
    (h : degradedCheck e = some t) :
    300 < t.length ∧ ∃ u, t = jsTrim u := by
  unfold degradedCheck at h
  split at h
  · split at h
    · next hc =>
      obtain rfl := Option.some.inj h
      exact ⟨hc, _, rfl⟩
    · cases h
  · cases h

/-- The text accepted by the alternative (retry) scan is a trimmed
string of more than 500 characters. -/
theorem alternativaCheck_bound {e : Elem} {t : Str}
    (h : alternativaCheck e = some t) :
    500 < t.length ∧ ∃ u, t = jsTrim u := by
  unfold alternativaCheck at h
  split at h
  · next hc =>
    obtain rfl := Option.some.inj h
    exact ⟨hc.1, jsOr e.innerText e.textContent, rfl⟩
  · cases h

/-- A kept paragraph fragment is a trimmed string of more than 50
characters. -/
theorem fragQual_bound {p : Elem} {t : Str}
    (h : fragQual p = some t) :
    50 < t.length ∧ ∃ u, t = jsTrim u := by
  unfold fragQual at h
  split at h
  · next hc =>
    obtain rfl := Option.some.inj h
    exact ⟨hc.1, jsOr p.textContent p.innerText, rfl⟩
  · cases h

/-- Every member of `secaoFrags` is a trimmed string of more than 50
characters. -/
theorem secaoFrags_mem {secao : Elem} {f : Str}
    (h : f ∈ secaoFrags secao) :
    50 < f.length ∧ ∃ u, f = jsTrim u := by
  unfold secaoFrags at h
  obtain ⟨p, _, hp⟩ := List.mem_filterMap.mp h
  exact fragQual_bound hp

/-- A nonempty list decomposes as an initial segment plus a last
element. -/
theorem exists_concat {l : List Str} (h : l ≠ []) :
    ∃ l2 fN, l = l2 ++ [fN] := by
  induction l with
  | nil => cases h rfl
  | cons a l ih =>
    cases l with
    | nil => exact ⟨[], a, rfl⟩
    | cons b l2 =>
      obtain ⟨m, fN, hm⟩ := ih (by simp)
      exact ⟨a :: m, fN, by rw [List.cons_append, ← hm]⟩

/-- `catList` distributes over append. -/
theorem catList_append (a b : List Str) :
    catList (a ++ b) = catList a ++ catList b := by
  induction a with
  | nil => simp [catList]
  | cons x a ih => simp [catList, ih]

/-- Right-trimming a string that ends in a fragment with a
non-whitespace last character followed by the blank-line separator
removes exactly the separator. -/
theorem trimR_strip_nl2 {X f : Str} {d : Char} {fr : Str}
    (hf : f.reverse = d :: fr) (hd : isWs d = false) :
    trimR (X ++ (f ++ nl2)) = X ++ f := by
  have hnl : (X ++ (f ++ nl2)).reverse = '\n' :: '\n' :: (f.reverse ++ X.reverse) := by
    rw [List.reverse_append, List.reverse_append]
    rfl
  unfold trimR
  rw [hnl, List.dropWhile_cons, List.dropWhile_cons]
  have hws : isWs '\n' = true := rfl
  rw [if_pos hws, if_pos hws, hf, List.cons_append, List.dropWhile_cons,
    if_neg (by rw [hd]; exact Bool.false_ne_true), ← List.cons_append, ← hf,
    List.reverse_append, List.reverse_reverse, List.reverse_reverse]

/-- The text accepted by paragraph aggregation is a trimmed string of
more than 300 characters: the raw aggregate exceeds 500 characters
and trimming it removes exactly the final blank-line separator. -/
theorem secaoAgg_bound {secao : Elem} {t : Str}
    (h : secaoAgg secao = some t) :
    300 < t.length ∧ ∃ u, t = jsTrim u := by
  unfold secaoAgg at h
  split at h
  · next hc =>
    split at h
    · obtain rfl := Option.some.inj h
      refine ⟨?_, aggCompleto secao, rfl⟩
      obtain ⟨h3, h500⟩ := hc
      have hne : secaoFrags secao ≠ [] := by
        intro h0; rw [h0] at h3; simp at h3
      obtain ⟨f0, rest, hcons⟩ : ∃ f0 rest, secaoFrags secao = f0 :: rest := by
        cases hcase : secaoFrags secao with
        | nil => exact absurd hcase hne
        | cons a b => exact ⟨a, b, rfl⟩
      obtain ⟨hf0len, u0, hf0u⟩ :=
        secaoFrags_mem (by rw [hcons]; exact List.mem_cons_self f0 rest)
      obtain ⟨c, f0t, hf0c⟩ : ∃ c f0t, f0 = c :: f0t := by
        cases hf0n : f0 with
        | nil => rw [hf0n] at hf0len; simp at hf0len
        | cons a b => exact ⟨a, b, rfl⟩
      have hcws : isWs c = false := jsTrim_head (by rw [← hf0u, hf0c])
      obtain ⟨tail, htail⟩ : ∃ tail, aggCompleto secao = c :: tail := by
        refine ⟨f0t ++ (nl2 ++ catList (rest.map (fun f => f ++ nl2))), ?_⟩
        unfold aggCompleto
        rw [hcons]
        simp [catList, hf0c]
      have htrimL : trimL (aggCompleto secao) = aggCompleto secao := by
        rw [htail]
        exact List.dropWhile_cons_of_neg (by rw [hcws]; exact Bool.false_ne_true)
      obtain ⟨init, fN, hsplit⟩ := exists_concat hne
      have hfN : fN ∈ secaoFrags secao := by
        rw [hsplit]
        exact List.mem_append.mpr (Or.inr (List.mem_cons_self _ _))
      obtain ⟨hfNlen, uN, hfNu⟩ := secaoFrags_mem hfN
      have hfNne : fN ≠ [] := by
        intro h0; rw [h0] at hfNlen; simp at hfNlen
      obtain ⟨d, fr, hrev⟩ : ∃ d fr, fN.reverse = d :: fr := by
        cases hr : fN.reverse with
        | nil =>
          exact absurd (by simpa using congrArg List.reverse hr) hfNne
        | cons a b => exact ⟨a, b, rfl⟩
      have hdws : isWs d = false := jsTrim_rev_head (by rw [← hfNu]; exact hrev)
      have hX : aggCompleto secao =
          catList (init.map (fun f => f ++ nl2)) ++ (fN ++ nl2) := by
        unfold aggCompleto
        rw [hsplit, List.map_append, catList_append]
        simp [catList]
      have hjt : jsTrim (aggCompleto secao) =
          catList (init.map (fun f => f ++ nl2)) ++ fN := by
        unfold jsTrim
        rw [htrimL, hX]
        exact trimR_strip_nl2 hrev hdws
      have h2 : nl2.length = 2 := by decide
      rw [hX] at h500
      rw [hjt]
      simp only [List.length_append, h2] at h500 ⊢
      omega
    · cases h
  · cases h

/-- Once the largest-block fold holds a candidate, it returns one. -/
theorem largestGo_some_of_acc :
    ∀ (l : List Elem) (a : Str) (maior : Nat),
      ∃ t, largestGo l (some a) maior = some t := by
  intro l
  induction l with
  | nil => intro a maior; exact ⟨a, rfl⟩
  | cons e rest ih =>
    intro a maior
    unfold largestGo
    split
    · split
      · exact ih _ _
      · exact ih _ _
    · exact ih _ _

/-- Provenance of the largest-block fold: a returned candidate is the
incoming accumulator or the text of a qualifying element of the
list. -/
theorem largestGo_provenance :
    ∀ (l : List Elem) (melhor : Option Str) (maior : Nat) (t : Str),
      largestGo l melhor maior = some t →
      melhor = some t ∨ ∃ e, e ∈ l ∧ ScanQual e ∧ t = scanTexto e := by
  intro l
  induction l with
  | nil => intro melhor maior t h; exact Or.inl h
  | cons e rest ih =>
    intro melhor maior t h
    unfold largestGo at h
    split at h
    · next h1 =>
      split at h
      · next h2 =>
        rcases ih _ _ _ h with h3 | ⟨e2, he2, hq2, ht2⟩
        · exact Or.inr ⟨e, List.mem_cons_self e rest,
            ⟨h1.1, h1.2, h2.1⟩, (Option.some.inj h3).symm⟩
        · exact Or.inr ⟨e2, List.mem_cons_of_mem e he2, hq2, ht2⟩
      · rcases ih _ _ _ h with h3 | ⟨e2, he2, hq2, ht2⟩
        · exact Or.inl h3
        · exact Or.inr ⟨e2, List.mem_cons_of_mem e he2, hq2, ht2⟩
    · rcases ih _ _ _ h with h3 | ⟨e2, he2, hq2, ht2⟩
      · exact Or.inl h3
      · exact Or.inr ⟨e2, List.mem_cons_of_mem e he2, hq2, ht2⟩

/-- Maximality of the largest-block fold: the returned candidate's
length dominates the threshold and every qualifying element. -/
theorem largestGo_bound :
    ∀ (l : List Elem) (melhor : Option Str) (maior : Nat),
      (∀ a, melhor = some a → maior ≤ a.length) →
      ∀ t, largestGo l melhor maior = some t →
        maior ≤ t.length ∧
          ∀ e, e ∈ l → ScanQual e → (scanTexto e).length ≤ t.length := by
  intro l
  induction l with
  | nil =>
    intro melhor maior hinv t h
    exact ⟨hinv t h, fun e he => absurd he (List.not_mem_nil e)⟩
  | cons e rest ih =>
    intro melhor maior hinv t h
    unfold largestGo at h
    split at h
    · next h1 =>
      split at h
      · next h2 =>
        have hinv2 : ∀ a, some (scanTexto e) = some a →
            (scanTexto e).length ≤ a.length := by
          intro a ha
          cases Option.some.inj ha
          exact Nat.le_refl _
        obtain ⟨hm, hrest⟩ := ih _ _ hinv2 t h
        refine ⟨by omega, ?_⟩
        intro e2 he2 hq2
        rcases List.mem_cons.mp he2 with rfl | he2
        · exact hm
        · exact hrest e2 he2 hq2
      · next h2 =>
        obtain ⟨hm, hrest⟩ := ih _ _ hinv t h
        refine ⟨hm, ?_⟩
        intro e2 he2 hq2
        rcases List.mem_cons.mp he2 with rfl | he2
        · have hle : (scanTexto e2).length ≤ maior := by
            by_contra hgt
            exact h2 ⟨hq2.2.2, by omega⟩
          omega
        · exact hrest e2 he2 hq2
    · next h1 =>
      obtain ⟨hm, hrest⟩ := ih _ _ hinv t h
      refine ⟨hm, ?_⟩
      intro e2 he2 hq2
      rcases List.mem_cons.mp he2 with rfl | he2
      · exact absurd ⟨hq2.1, hq2.2.1⟩ h1
      · exact hrest e2 he2 hq2

/-- The largest-block fold succeeds when some qualifying element
beats the incoming maximum. -/
theorem largestGo_success :
    ∀ (l : List Elem) (melhor : Option Str) (maior : Nat),
      (∃ e, e ∈ l ∧ ScanQual e ∧ maior < (scanTexto e).length) →
      ∃ t, largestGo l melhor maior = some t := by
  intro l
  induction l with
  | nil =>
    intro melhor maior hx
    obtain ⟨e, he, _⟩ := hx
    cases he
  | cons e0 rest ih =>
    intro melhor maior hx
    obtain ⟨e, he, hq, hlt⟩ := hx
    unfold largestGo
    split
    · split
      · exact largestGo_some_of_acc rest _ _
      · next h2 =>
        rcases List.mem_cons.mp he with rfl | he2
        · exact absurd ⟨hq.2.2, hlt⟩ h2
        · exact ih _ _ ⟨e, he2, hq, hlt⟩
    · next h1 =>
      rcases List.mem_cons.mp he with rfl | he2
      · exact absurd ⟨hq.1, hq.2.1⟩ h1
      · exact ih _ _ ⟨e, he2, hq, hlt⟩

/-- A character of the first joined piece is in the join. -/
theorem mem_joinSep_head {sep x : Str} {xs : List Str} {c : Char}
    (hc : c ∈ x) : c ∈ joinSep sep (x :: xs) := by
  cases xs with
  | nil => simpa [joinSep] using hc
  | cons y ys =>
    unfold joinSep
    exact List.mem_append.mpr (Or.inl (List.mem_append.mpr (Or.inl hc)))

/-- The line filter's output contains a non-whitespace character. -/
theorem lineFilter_nonws {s : Snapshot} {t : Str}
    (h : lineFilter s = some t) : ∃ c, c ∈ t ∧ isWs c = false := by
  unfold lineFilter at h
  split at h
  · cases h
  · rename_i m hm
    split at h
    · split at h
      · next h5 =>
        obtain rfl := Option.some.inj h
        obtain ⟨lin, rest, hL⟩ : ∃ lin rest,
            (splitNl (jsTrim (jsOr m.innerText m.textContent))).filter lineOk =
              lin :: rest := by
          cases hc : (splitNl (jsTrim (jsOr m.innerText m.textContent))).filter lineOk with
          | nil => rw [hc] at h5; simp at h5
          | cons a b => exact ⟨a, b, rfl⟩
        have hok : lineOk lin = true := by
          have hmem : lin ∈ (splitNl (jsTrim (jsOr m.innerText m.textContent))).filter lineOk := by
            rw [hL]; exact List.mem_cons_self _ _
          exact (List.mem_filter.mp hmem).2
        have h20 : 20 < (jsTrim lin).length := by
          unfold lineOk at hok
          rw [Bool.and_eq_true] at hok
          exact of_decide_eq_true hok.1
        have h0 : 0 < (jsTrim lin).length := by omega
        obtain ⟨c, hcmem, hcws⟩ := jsTrim_has_nonws h0
        rw [hL]
        exact ⟨c, mem_joinSep_head (mem_of_mem_jsTrim hcmem), hcws⟩
      · cases h
    · cases h

/-- The `NotFound` sentinel contains a non-whitespace character. -/
theorem sentinel_nonws : ∃ c, c ∈ sentinel ∧ isWs c = false :=
  ⟨'D', by decide, by decide⟩

/-- Every value of the strategy chain contains a non-whitespace
character (so trimming it again cannot empty it). -/
theorem extrairDescricao_nonws (s : Snapshot) :
    ∃ c, c ∈ extrairDescricao s ∧ isWs c = false := by
  unfold extrairDescricao
  cases h1 : catalogScan s with
  | some t =>
    obtain ⟨e, hp⟩ := catalogLoop_some h1
    obtain ⟨hlen, u, rfl⟩ := primarioCheck_bound hp
    exact jsTrim_has_nonws (by omega)
  | none =>
  cases h2 : testIdSweep s with
  | some t =>
    obtain ⟨e, _, hp⟩ := firstHit_some h2
    obtain ⟨hlen, u, rfl⟩ := testIdCheck_bound hp
    exact jsTrim_has_nonws (by omega)
  | none =>
  cases h3 : atributosSweep s with
  | some t =>
    obtain ⟨e, _, hp⟩ := firstHit_some h3
    obtain ⟨hlen, u, rfl⟩ := atributosCheck_bound hp
    exact jsTrim_has_nonws (by omega)
  | none =>
  cases h4 : paragraphAgg s with
  | some t =>
    obtain ⟨e, _, hp⟩ := firstHit_some h4
    obtain ⟨hlen, u, rfl⟩ := secaoAgg_bound hp
    exact jsTrim_has_nonws (by omega)
  | none =>
  cases h5 : descricaoSweep s with
  | some t =>
    obtain ⟨e, _, hp⟩ := firstHit_some h5
    obtain ⟨hlen, u, rfl⟩ := descricaoCheck_bound hp
    exact jsTrim_has_nonws (by omega)
  | none =>
  cases h6 : largestScan s with
  | some t =>
    rcases largestGo_provenance _ _ _ _ h6 with hbad | ⟨e, _, hq, rfl⟩
    · cases hbad
    · have h0 : 0 < (jsTrim (jsOr e.textContent e.innerText)).length := by
        have := hq.1
        unfold scanTexto at this
        omega
      exact jsTrim_has_nonws h0
  | none =>
  cases h7 : degradedMain s with
  | some t =>
    obtain ⟨e, _, hp⟩ := firstHit_some h7
    obtain ⟨hlen, u, rfl⟩ := degradedCheck_bound hp
    exact jsTrim_has_nonws (by omega)
  | none =>
  cases h8 : lineFilter s with
  | some t => exact lineFilter_nonws h8
  | none => exact sentinel_nonws

/-- The final result of the orchestrator is never the empty string. -/
theorem descricaoFinal_ne_nil (s1 s2 : Snapshot) :
    descricaoFinal s1 s2 ≠ [] := by
  obtain ⟨c, hc, hw⟩ := extrairDescricao_nonws s1
  have hbase : jsTrim (extrairDescricao s1) ≠ [] := jsTrim_ne_nil hc hw
  unfold descricaoFinal
  split
  · cases ha : descricaoAlternativa s2 with
    | none => exact hbase
    | some a =>
      show (if 300 < a.length then jsTrim a else jsTrim (extrairDescricao s1)) ≠ []
      by_cases h300 : 300 < a.length
      · rw [if_pos h300]
        obtain ⟨e, _, hp⟩ :=
          firstHit_some (show firstHit alternativaCheck (allElements s2) = some a from ha)
        obtain ⟨hlen, u, rfl⟩ := alternativaCheck_bound hp
        have h0 : 0 < (jsTrim u).length := by omega
        obtain ⟨c2, hc2, hw2⟩ := jsTrim_has_nonws h0
        exact jsTrim_ne_nil hc2 hw2
      · rw [if_neg h300]
        exact hbase
  · exact hbase

/-- Rules whose query throws contribute nothing: the selector loop is
unchanged when they are filtered out. -/
theorem catalogLoop_filter (s : Snapshot) :
    ∀ sels : List Sel, catalogLoop s sels =
      catalogLoop s (sels.filter (fun q => decide (¬ q ∈ s.throwing))) := by
  intro sels
  induction sels with
  | nil => rfl
  | cons q rest ih =>
    by_cases hq : q ∈ s.throwing
    · have hL : catalogLoop s (q :: rest) = catalogLoop s rest := by
        simp only [catalogLoop]
        rw [if_pos hq]
      have hdec : (fun q2 : Sel => decide (¬ q2 ∈ s.throwing)) q = false := by
        simp [hq]
      have hF : (q :: rest).filter (fun q2 => decide (¬ q2 ∈ s.throwing)) =
          rest.filter (fun q2 => decide (¬ q2 ∈ s.throwing)) := by
        rw [List.filter_cons]
        simp [hq]
      rw [hL, hF]
      exact ih
    · have hdec : (fun q2 : Sel => decide (¬ q2 ∈ s.throwing)) q = true := by
        simp [hq]
      have hF : (q :: rest).filter (fun q2 => decide (¬ q2 ∈ s.throwing)) =
          q :: rest.filter (fun q2 => decide (¬ q2 ∈ s.throwing)) := by
        rw [List.filter_cons]
        simp [hq]
      rw [hF]
      simp only [catalogLoop]
      rw [if_neg hq, if_neg hq]
      cases hqs : querySel s q with
      | none => exact ih
      | some e =>
        show (match primarioCheck e with
              | some t => some t
              | none => catalogLoop s rest) =
            (match primarioCheck e with
              | some t => some t
              | none => catalogLoop s (rest.filter (fun q2 => decide (¬ q2 ∈ s.throwing))))
        cases hp : primarioCheck e with
        | some u => rfl
        | none => exact ih

/-- A string is a `isPrefixOf`-prefix of itself followed by anything. -/
theorem isPrefixOf_self_append : ∀ l t : Str, l.isPrefixOf (l ++ t) = true := by
  intro l
  induction l with
  | nil => intro t; cases t <;> rfl
  | cons a l ih =>
    intro t
    simp [List.isPrefixOf, ih]

/-- C1 (counterexample): on snapshot `exC1` the orchestrator returns
an accepted, non-sentinel result of 160 characters via the
main-content line filter — shorter than the 300-character minimum the
claim asserts is always enforced before returning. -/
theorem claim_C1_counterexample :
    descricaoFinal exC1 exC1 = joinSep nl2 (List.replicate 6 goodLine) ∧
    (joinSep nl2 (List.replicate 6 goodLine)).length < 300 ∧
    joinSep nl2 (List.replicate 6 goodLine) ≠ sentinel :=
  ⟨by decide, by decide, by decide⟩

/-- C1 (amended): every strategy except the final line filter accepts
only text longer than 300 characters (catalog, attribute sweep,
paragraph aggregation and degraded fallback require more than 300,
the keyword sweep more than 400, the `data-test-id` sweep and the
largest-block scan more than 500); the line-filter path can return an
accepted non-sentinel result shorter than 300 characters, and the
orchestrator returns it without re-checking acceptability. -/
theorem claim_C1_theorem :
    (∀ (s : Snapshot) (t : Str), catalogScan s = some t → 300 < t.length) ∧
    (∀ (s : Snapshot) (t : Str), testIdSweep s = some t → 500 < t.length) ∧
    (∀ (s : Snapshot) (t : Str), atributosSweep s = some t → 300 < t.length) ∧
    (∀ (s : Snapshot) (t : Str), paragraphAgg s = some t → 300 < t.length) ∧
    (∀ (s : Snapshot) (t : Str), descricaoSweep s = some t → 400 < t.length) ∧
    (∀ (s : Snapshot) (t : Str), largestScan s = some t → 500 < t.length) ∧
    (∀ (s : Snapshot) (t : Str), degradedMain s = some t → 300 < t.length) := by
  refine ⟨?_, ?_, ?_, ?_, ?_, ?_, ?_⟩
  · intro s t h
    obtain ⟨e, hp⟩ := catalogLoop_some h
    exact (primarioCheck_bound hp).1
  · intro s t h
    obtain ⟨e, _, hp⟩ := firstHit_some h
    exact (testIdCheck_bound hp).1
  · intro s t h
    obtain ⟨e, _, hp⟩ := firstHit_some h
    exact (atributosCheck_bound hp).1
  · intro s t h
    obtain ⟨e, _, hp⟩ := firstHit_some h
    exact (secaoAgg_bound hp).1
  · intro s t h
    obtain ⟨e, _, hp⟩ := firstHit_some h
    exact (descricaoCheck_bound hp).1
  · intro s t h
    rcases largestGo_provenance _ _ _ _ h with hbad | ⟨e, _, hq, rfl⟩
    · cases hbad
    · exact hq.1
  · intro s t h
    obtain ⟨e, _, hp⟩ := firstHit_some h
    exact (degradedCheck_bound hp).1

/-- C1 (witness): a concrete catalog hit of 399 characters satisfies
the amended bound. -/
theorem claim_C1_witness :
    catalogScan exW1 = some (jsTrim exW1Texto) ∧
    300 < (jsTrim exW1Texto).length :=
  ⟨by decide, claim_C1_theorem.1 exW1 (jsTrim exW1Texto) (by decide)⟩

/-- C2 (counterexample): with a triggering first pass (the empty
snapshot yields the short sentinel) and a second snapshot on which
the full strategy chain succeeds via the catalog, the orchestrator
does not return the second-pass chain result: the retry runs only the
alternative whole-document scan, which fails here, so the first-pass
value is returned — refuting both "re-runs the full strategy chain"
and "the second pass's outcome is the final result". -/
theorem claim_C2_counterexample :
    retryTrigger (extrairDescricao emptySnap) = true ∧
    descricaoFinal emptySnap exW1 ≠ extrairDescricao exW1 ∧
    descricaoFinal emptySnap exW1 = jsTrim (extrairDescricao emptySnap) :=
  ⟨by decide, by decide, by decide⟩

/-- C2 (amended): when the first pass is shorter than 300 characters
or still matches `nível de experiência`/`tipo de emprego`, exactly
one alternative scan runs — a single whole-document sweep, not a
re-run of the full strategy chain — and its value is returned
(trimmed) only when present and longer than 300 characters; otherwise
the first-pass value is returned; without the trigger no re-scan
affects the result.  The alternative scan only produces strings
longer than 500 characters. -/
theorem claim_C2_theorem (s1 s2 : Snapshot) :
    (retryTrigger (extrairDescricao s1) = false →
      descricaoFinal s1 s2 = jsTrim (extrairDescricao s1)) ∧
    (∀ a, retryTrigger (extrairDescricao s1) = true →
      descricaoAlternativa s2 = some a → 300 < a.length →
      descricaoFinal s1 s2 = jsTrim a) ∧
    (retryTrigger (extrairDescricao s1) = true →
      descricaoAlternativa s2 = none →
      descricaoFinal s1 s2 = jsTrim (extrairDescricao s1)) ∧
    (∀ a, descricaoAlternativa s2 = some a → 500 < a.length) := by
  refine ⟨?_, ?_, ?_, ?_⟩
  · intro htr
    simp [descricaoFinal, htr]
  · intro a htr ha h300
    simp [descricaoFinal, htr, ha, h300]
  · intro htr ha
    simp [descricaoFinal, htr, ha]
  · intro a ha
    obtain ⟨e, _, hp⟩ :=
      firstHit_some (show firstHit alternativaCheck (allElements s2) = some a from ha)
    exact (alternativaCheck_bound hp).1

/-- C2 (witness): the three cases of the amended retry behaviour at
concrete snapshots. -/
theorem claim_C2_witness :
    descricaoFinal exW1 emptySnap = jsTrim (extrairDescricao exW1) ∧
    descricaoFinal emptySnap exAlt = jsTrim (jsTrim exAltTexto) ∧
    descricaoFinal emptySnap emptySnap = jsTrim (extrairDescricao emptySnap) :=
  ⟨(claim_C2_theorem exW1 emptySnap).1 (by decide),
   (claim_C2_theorem emptySnap exAlt).2.1 (jsTrim exAltTexto) (by decide)
     (by decide) (by decide),
   (claim_C2_theorem emptySnap emptySnap).2.2.1 (by decide) (by decide)⟩

/-- C3 (counterexample): an upstream navigation failure is caught by
the outer catch and surfaced as an ordinary string result — the call
yields a normal `ok` value, not a propagated exception. -/
theorem claim_C3_counterexample :
    baixarDescricaoVaga (.error navMsg) = .ok (erroPrefixo ++ navMsg) := rfl

/-- C3 (amended): no exception escapes `baixarDescricaoVaga`: every
input, including an unusable snapshot, yields an `ok` value, and an
upstream failure with message `e` yields the normal string
`"Erro ao baixar descrição: " ++ e`. -/
theorem claim_C3_theorem :
    (∀ inp : Except Str (Snapshot × Snapshot),
      ∃ t, baixarDescricaoVaga inp = .ok t) ∧
    (∀ e : Str, baixarDescricaoVaga (.error e) = .ok (erroPrefixo ++ e)) := by
  constructor
  · intro inp
    cases inp with
    | error e => exact ⟨erroPrefixo ++ e, rfl⟩
    | ok p => exact ⟨descricaoFinal p.1 p.2, rfl⟩
  · intro e
    rfl

/-- C4 (counterexample): on snapshot `exC4` the chain accepts, via
the degraded main-content fallback, a non-sentinel text that contains
the negative keyword `tipo de emprego`, and the orchestrator's final
output still contains it — accepted outputs are not free of negative
keywords. -/
theorem claim_C4_counterexample :
    strL "tipo de emprego" ∈ negPrimario ∧
    occursIn (strL "tipo de emprego") (lowerStr (extrairDescricao exC4)) = true ∧
    extrairDescricao exC4 ≠ sentinel ∧
    occursIn (strL "tipo de emprego") (lowerStr (descricaoFinal exC4 exC4)) = true :=
  ⟨by decide, by decide, by decide, by decide⟩

/-- C4 (amended): the priority-selector classification rejects any
text containing one of its negative keywords regardless of length;
the fallback strategies check only subsets of the keyword set, so an
accepted fallback output can still contain a negative keyword. -/
theorem claim_C4_theorem (e : Elem) (kw : Str)
    (hk : kw ∈ negPrimario)
    (hc : occursIn kw (lowerStr (jsTrim (primTexto e))) = true) :
    primarioCheck e = none := by
  unfold primarioCheck
  split
  · next hcond =>
    exfalso
    have hall := hcond.2
    unfold noneOf at hall
    rw [List.all_eq_true] at hall
    have hkw := hall kw hk
    simp [hc] at hkw
  · rfl

/-- C4 (witness): the brand keyword rejects a concrete element
regardless of its (short) length. -/
theorem claim_C4_witness :
    strL "linkedin" ∈ negPrimario ∧
    primarioCheck exKwElem = none :=
  ⟨by decide, claim_C4_theorem exKwElem (strL "linkedin") (by decide) (by decide)⟩

/-- C5: an exception while querying a single selector is caught and
treated as that rule producing no candidate — the priority loop over
any selector list equals the loop with the throwing selectors
filtered out — and the overall extraction still returns a value: the
chain's result is never the empty string. -/
theorem claim_C5_theorem :
    (∀ (s : Snapshot) (sels : List Sel),
      catalogLoop s sels =
        catalogLoop s (sels.filter (fun q => decide (¬ q ∈ s.throwing)))) ∧
    (∀ s : Snapshot, extrairDescricao s ≠ []) := by
  constructor
  · exact catalogLoop_filter
  · intro s
    obtain ⟨c, hc, _⟩ := extrairDescricao_nonws s
    exact List.ne_nil_of_mem hc

/-- C6: short-circuit laws — when the selector catalog accepts, the
chain's result is exactly the catalog's candidate, so no fallback is
ever consulted; and when the catalog misses but the
attribute-pattern (`data-test-id`) sweep accepts, the chain's result
is exactly that sweep's candidate, so paragraph aggregation and the
largest-block scan are never reached. -/
theorem claim_C6_theorem :
    (∀ (s : Snapshot) (t : Str), catalogScan s = some t →
      extrairDescricao s = t) ∧
    (∀ (s : Snapshot) (t : Str), catalogScan s = none →
      testIdSweep s = some t → extrairDescricao s = t) := by
  constructor
  · intro s t h
    simp [extrairDescricao, h]
  · intro s t h1 h2
    simp [extrairDescricao, h1, h2]

/-- C6 (witness): a concrete catalog hit and a concrete
`data-test-id` hit decide the chain's result. -/
theorem claim_C6_witness :
    extrairDescricao exW1 = jsTrim exW1Texto ∧
    extrairDescricao exW2 = exW2Texto :=
  ⟨claim_C6_theorem.1 exW1 (jsTrim exW1Texto) (by decide),
   claim_C6_theorem.2 exW2 exW2Texto (by decide) (by decide)⟩

/-- C7: determinism — the strategy chain and the two-pass
orchestrator are functions of the snapshot alone: equal snapshots
give equal results, so running the orchestrator twice on the same
immutable snapshot yields the same `ExtractionResult`. -/
theorem claim_C7_theorem (s s2 : Snapshot) (h : s = s2) :
    extrairDescricao s = extrairDescricao s2 ∧
    descricaoFinal s s = descricaoFinal s2 s2 := by
  subst h
  exact ⟨rfl, rfl⟩

/-- C7 (witness): instantiation at a concrete snapshot. -/
theorem claim_C7_witness :
    emptySnap = emptySnap ∧
    (extrairDescricao emptySnap = extrairDescricao emptySnap ∧
      descricaoFinal emptySnap emptySnap = descricaoFinal emptySnap emptySnap) :=
  ⟨rfl, claim_C7_theorem emptySnap emptySnap rfl⟩

/-- C8: the largest-relevant-block scan returns, whenever some
candidate qualifies (more than 500 characters, negative keywords
absent, a positive keyword present), the text of a qualifying
candidate whose length dominates every qualifying candidate — the
greatest, not merely the first in document order. -/
theorem claim_C8_theorem (els : List Elem) (e : Elem)
    (he : e ∈ els) (hq : ScanQual e) :
    ∃ t, largestGo els none 0 = some t ∧
      (∃ e2, e2 ∈ els ∧ ScanQual e2 ∧ t = scanTexto e2) ∧
      ∀ e3, e3 ∈ els → ScanQual e3 → (scanTexto e3).length ≤ t.length := by
  have hpos : 0 < (scanTexto e).length := by
    have := hq.1
    omega
  obtain ⟨t, ht⟩ := largestGo_success els none 0 ⟨e, he, hq, hpos⟩
  rcases largestGo_provenance els none 0 t ht with hbad | hp
  · cases hbad
  · refine ⟨t, ht, hp, ?_⟩
    intro e3 h3 q3
    exact (largestGo_bound els none 0 (by intro a ha; cases ha) t ht).2 e3 h3 q3

/-- C8 (witness): on a two-candidate list whose first qualifying
candidate is the smaller one, the scan's result dominates both. -/
theorem claim_C8_witness :
    ScanQual exScanSmall ∧
    ∃ t, largestGo [exScanSmall, exScanBig] none 0 = some t ∧
      (∃ e2, e2 ∈ [exScanSmall, exScanBig] ∧ ScanQual e2 ∧ t = scanTexto e2) ∧
      ∀ e3, e3 ∈ [exScanSmall, exScanBig] → ScanQual e3 →
        (scanTexto e3).length ≤ t.length :=
  ⟨by decide, claim_C8_theorem [exScanSmall, exScanBig] exScanSmall
    (List.mem_cons_self _ _) (by decide)⟩

/-- C9: paragraph aggregation accepts a container exactly when it
yields at least 3 qualifying descendant fragments (each longer than
50 characters and free of the metadata blocklist) whose blank-line
concatenation exceeds 500 characters and whose trimmed aggregate
clears the linkedin/entrar/cadastre-se check; concretely, a snapshot
with no catalog matches whose container holds four qualifying
130-character paragraph children is accepted via this strategy with
the aggregated text. -/
theorem claim_C9_theorem :
    (∀ secao : Elem, (secaoAgg secao).isSome = true ↔
      (3 ≤ (secaoFrags secao).length ∧ 500 < (aggCompleto secao).length ∧
        noneOf negAgregado (lowerStr (jsTrim (aggCompleto secao))) = true)) ∧
    extrairDescricao exC9 = joinSep nl2 [fragB, fragB, fragB, fragB] ∧
    descricaoFinal exC9 exC9 = joinSep nl2 [fragB, fragB, fragB, fragB] := by
  refine ⟨?_, by decide, by decide⟩
  intro secao
  unfold secaoAgg
  by_cases h1 : 3 ≤ (secaoFrags secao).length ∧ 500 < (aggCompleto secao).length
  · by_cases h2 : noneOf negAgregado (lowerStr (jsTrim (aggCompleto secao))) = true
    · rw [if_pos h1, if_pos h2]
      simp [h1.1, h1.2, h2]
    · rw [if_pos h1, if_neg h2]
      simp only [Option.isSome_none, Bool.false_eq_true, false_iff]
      exact fun hx => h2 hx.2.2
  · rw [if_neg h1]
    simp only [Option.isSome_none, Bool.false_eq_true, false_iff]
    exact fun hx => h1 ⟨hx.1, hx.2.1⟩

/-- C10: `baixarDescricaoVaga` is total at its public interface: for
every input it returns an `ok`, non-empty string, and that string is
the `NotFound` sentinel, an `"Erro ao baixar descrição: "`-prefixed
message, or the orchestrator's extraction value. -/
theorem claim_C10_theorem (inp : Except Str (Snapshot × Snapshot)) :
    ∃ t, baixarDescricaoVaga inp = .ok t ∧ t ≠ [] ∧
      (t = sentinel ∨ erroPrefixo.isPrefixOf t = true ∨
        ∃ s1 s2, inp = .ok (s1, s2) ∧ t = descricaoFinal s1 s2) := by
  cases inp with
  | error e =>
    refine ⟨erroPrefixo ++ e, rfl, ?_, Or.inr (Or.inl (isPrefixOf_self_append erroPrefixo e))⟩
    intro h0
    have hlen := congrArg List.length h0
    simp [erroPrefixo, strL] at hlen
  | ok p =>
    exact ⟨descricaoFinal p.1 p.2, rfl, descricaoFinal_ne_nil p.1 p.2,
      Or.inr (Or.inr ⟨p.1, p.2, rfl, rfl⟩)⟩


end OptimizerCV
